import Mathlib

/-!
Verification of the invariant-gfx compositing and layout engine.

Shallow embedding of the Python sources under `src/invariant_gfx/`:
`ops/composite.py`, `ops/layout.py`, `ops/resize.py`, `artifacts.py`,
`recipes/drop_shadow.py`.  Python strings are modelled as `List Char`
(or `String` where only identity matters), `bytes` as `List Nat`,
`Decimal`/`float` as `ℚ`, machine ints as `ℤ`/`ℕ`, and raised
exceptions as the error side of `Except`.
-/

namespace InvariantGfx

/-- Model of the Python exceptions raised by the engine
(`KeyError`, `ValueError`, `OverflowError` from `int.to_bytes`). -/
inductive PyErr where
  | keyError (msg : String)
  | valueError (msg : String)
  | overflowError (msg : String)
deriving DecidableEq, Repr

/-- Model of the dynamically typed Python values the engine receives for
numeric parameters: `Decimal` and `float` are exact rationals, `str`
is a character list, `pyNone` stands for any other unsupported type. -/
inductive PyVal where
  | pyDecimal (q : ℚ)
  | pyInt (n : ℤ)
  | pyFloat (q : ℚ)
  | pyStr (s : List Char)
  | pyNone
deriving DecidableEq, Repr

/-- `str.split(sep)` from Python, on character lists: splitting the empty
string gives one empty part, and separators at the ends give empty parts. -/
def splitOnChar (sep : Char) : List Char → List (List Char)
  | [] => [[]]
  | c :: rest =>
    let r := splitOnChar sep rest
    if c = sep then [] :: r
    else
      match r with
      | [] => [[c]]
      | h :: t => (c :: h) :: t

/-- `str.strip()` from Python: drop whitespace from both ends. -/
def stripChars (cs : List Char) : List Char :=
  ((cs.dropWhile Char.isWhitespace).reverse.dropWhile Char.isWhitespace).reverse

/-- Accumulating decimal-digit reader: `none` when a non-digit appears. -/
def digitsToNat : ℕ → List Char → Option ℕ
  | acc, [] => some acc
  | acc, c :: rest =>
    if c.isDigit then digitsToNat (acc * 10 + (c.toNat - 48)) rest
    else none

/-- Unsigned part of Python `float(str)` on plain decimal literals:
digits with an optional decimal point (`"10"`, `"10.5"`, `"10."`, `".5"`).
Exponent forms and inf/nan are outside the model; IEEE rounding is ignored
(the exact rational value of the literal is taken). -/
def parseUnsigned (cs : List Char) : Option ℚ :=
  match splitOnChar '.' cs with
  | [intPart] =>
    if intPart = [] then none
    else (digitsToNat 0 intPart).map (fun n => (n : ℚ))
  | [intPart, fracPart] =>
    if intPart = [] ∧ fracPart = [] then none
    else
      match digitsToNat 0 intPart, digitsToNat 0 fracPart with
      | some ip, some fp => some ((ip : ℚ) + (fp : ℚ) / (10 : ℚ) ^ fracPart.length)
      | _, _ => none
  | _ => none

/-- Python `float(str)` on simple signed decimal literals. -/
def parseFloatLit (cs : List Char) : Option ℚ :=
  match cs with
  | '-' :: rest => (parseUnsigned rest).map Neg.neg
  | '+' :: rest => parseUnsigned rest
  | _ => parseUnsigned cs

/-- Python `int()` applied to an exact numeric value: the quotient of
numerator by denominator with machine (truncating) integer division. -/
def pyTrunc (q : ℚ) : ℤ := Int.tdiv q.num (q.den : ℤ)

/-- Truncation toward zero as the spec words it: floor for non-negative
values, ceiling for negative ones. -/
def truncTowardZero (q : ℚ) : ℤ := if 0 ≤ q then ⌊q⌋ else ⌈q⌉

/-- `_to_int` from `ops/composite.py` (lines 341-355): `Decimal`, `int`
and `float` convert directly, strings go through `float()` first
(`int(float(value))`), anything else is a `ValueError`. -/
def pyToInt : PyVal → Except PyErr ℤ
  | .pyDecimal q => .ok (pyTrunc q)
  | .pyInt n => .ok n
  | .pyStr s =>
    match parseFloatLit s with
    | some q => .ok (pyTrunc q)
    | none => .error (.valueError "Cannot convert string to int")
  | .pyFloat q => .ok (pyTrunc q)
  | .pyNone => .error (.valueError "Cannot convert type to int")

theorem pyTrunc_eq_truncTowardZero (q : ℚ) : pyTrunc q = truncTowardZero q := by
  unfold pyTrunc truncTowardZero
  rcases le_or_lt 0 q with hq | hq
  · rw [if_pos hq, Rat.floor_def]
    exact Int.tdiv_eq_ediv (Rat.num_nonneg.mpr hq) (by positivity)
  · rw [if_neg (not_le.mpr hq), show ⌈q⌉ = -⌊-q⌋ by rw [Int.floor_neg, neg_neg],
      Rat.floor_def]
    have hnum : (-q).num = -q.num := by simp
    have hden : ((-q).den : ℤ) = (q.den : ℤ) := by simp
    have hqn : 0 ≤ -q.num := by
      have := Rat.num_nonneg.mpr (le_of_lt (neg_pos.mpr hq))
      simpa using this
    have h1 : Int.tdiv q.num (q.den : ℤ) = -Int.tdiv (-q.num) (q.den : ℤ) := by
      rw [Int.neg_tdiv, neg_neg]
    rw [hnum, hden, h1, Int.tdiv_eq_ediv hqn (by positivity)]

/-- Is the character one of the alignment codes `s`, `c`, `e`? -/
def validAlignChar (c : Char) : Bool := c = 's' || c = 'c' || c = 'e'

/-- One side of an alignment string: 1 character applies to both axes,
2 characters assign (horizontal, vertical); anything else is an error.
Shared logic of the self/parent branches of `_parse_alignment`. -/
def parseAlignSide (side : List Char) (what : String) : Except PyErr (Char × Char) :=
  match side with
  | [c] => .ok (c, c)
  | [c1, c2] => .ok (c1, c2)
  | _ => .error (.valueError (what ++ " alignment must be 1-2 chars"))

/-- `_parse_alignment` from `ops/composite.py` (lines 255-294): split the
string on a comma into self and parent parts, strip whitespace, read each
part as one or two axis codes, then validate every code character. -/
def parseAlignment (alignStr : List Char) : Except PyErr ((Char × Char) × (Char × Char)) :=
  match splitOnChar ',' alignStr with
  | [p1, p2] =>
    match parseAlignSide (stripChars p1) "Self" with
    | .error e => .error e
    | .ok selfAlign =>
      match parseAlignSide (stripChars p2) "Parent" with
      | .error e => .error e
      | .ok parentAlign =>
        if validAlignChar selfAlign.1 && validAlignChar selfAlign.2 &&
            validAlignChar parentAlign.1 && validAlignChar parentAlign.2 then
          .ok (selfAlign, parentAlign)
        else
          .error (.valueError "Alignment char must be s, c, or e")
  | _ => .error (.valueError "Alignment string must be self comma parent")

/-- `_align_position` from `ops/composite.py` (lines 297-338): compute the
parent anchor point for one axis, then place the self box so its own
anchor point coincides with it, then add the offset.  Sizes are pixel
dimensions (`ℕ`, halved with integer division); positions are `ℤ`. -/
def alignPosition (selfAlign parentAlign : Char) (selfSize parentSize : ℕ)
    (parentPos offset : ℤ) : Except PyErr ℤ := do
  let parentPoint ←
    if parentAlign = 's' then Except.ok parentPos
    else if parentAlign = 'c' then Except.ok (parentPos + ((parentSize / 2 : ℕ) : ℤ))
    else if parentAlign = 'e' then Except.ok (parentPos + (parentSize : ℤ))
    else Except.error (.valueError "Invalid parent align")
  let selfPos ←
    if selfAlign = 's' then Except.ok parentPoint
    else if selfAlign = 'c' then Except.ok (parentPoint - ((selfSize / 2 : ℕ) : ℤ))
    else if selfAlign = 'e' then Except.ok (parentPoint - (selfSize : ℤ))
    else Except.error (.valueError "Invalid self align")
  .ok (selfPos + offset)

/-- The anchor-point offset rule as the spec words it: start is the box
origin, center is origin + size/2 (integer division), end is origin + size.
Stated as the offset added to the origin. -/
def anchorOffset (code : Char) (size : ℕ) : ℤ :=
  if code = 's' then 0
  else if code = 'c' then ((size / 2 : ℕ) : ℤ)
  else (size : ℤ)

/-- A layer anchor spec as built by `anchors.py`: the dicts
`absolute(x, y)` and `relative(parent, align, x, y)`.  A missing or
non-string parent is modelled as `none`; `other` stands for any
unknown `type` value. -/
inductive AnchorSpec where
  | absolute (x y : PyVal)
  | relative (parent : Option String) (align : List Char) (x y : PyVal)
  | other (ty : String)
deriving DecidableEq, Repr

/-- `_resolve_position` from `ops/composite.py` (lines 193-252): absolute
anchors convert their coordinates; relative anchors require an already
placed parent, convert the offsets, parse the alignment and position each
axis with `_align_position`.  `placed` is the ledger mapping layer ids to
`(x, y, width, height)`. -/
def resolvePosition (spec : AnchorSpec) (selfW selfH : ℕ)
    (placed : List (String × (ℤ × ℤ × ℕ × ℕ))) : Except PyErr (ℤ × ℤ) :=
  match spec with
  | .absolute xv yv => do
    let x ← pyToInt xv
    let y ← pyToInt yv
    .ok (x, y)
  | .relative parentOpt alignStr xv yv => do
    let parentId ← match parentOpt with
      | some p => Except.ok p
      | none => Except.error (.valueError "relative anchor must have parent as string")
    let box ← match placed.lookup parentId with
      | some b => Except.ok b
      | none => Except.error (.valueError "parent has not been placed yet")
    let xOff ← pyToInt xv
    let yOff ← pyToInt yv
    let (parentX, parentY, parentW, parentH) := box
    let (selfAlign, parentAlign) ← parseAlignment alignStr
    let x ← alignPosition selfAlign.1 parentAlign.1 selfW parentW parentX xOff
    let y ← alignPosition selfAlign.2 parentAlign.2 selfH parentH parentY yOff
    .ok (x, y)
  | .other _ => .error (.valueError "Unknown anchor type")

/-- The fields of a layer spec dict that `_determine_z_order` consults:
the `type` string and the `parent` value (modelled `none` when missing
or not a string). -/
structure LayerSpec where
  ty : String
  parent : Option String
deriving DecidableEq, Repr

/-- First phase of `_determine_z_order` (`ops/composite.py` lines 133-144):
map each layer id to its parent id, `none` for non-relative layers, and
fail when a relative layer has no string parent. -/
def buildParentMap (layers : List (String × LayerSpec)) :
    Except PyErr (List (String × Option String)) :=
  layers.mapM (fun p =>
    if p.2.ty = "relative" then
      match p.2.parent with
      | some par => Except.ok (p.1, some par)
      | none => Except.error (.valueError "relative anchor must have parent as string")
    else Except.ok (p.1, (none : Option String)))

/-- Children of a layer in the parent map, in map order (the order the
Python code appends them while scanning the dict). -/
def childrenOf (pm : List (String × Option String)) (p : String) : List String :=
  pm.filterMap (fun q => if q.2 = some p then some q.1 else none)

/-- The chain walk of `_determine_z_order` (lines 172-180): repeatedly
follow the first child.  The while loop is bounded by the number of
layers, which the fuel argument makes explicit. -/
def chainFrom (pm : List (String × Option String)) : ℕ → String → List String
  | 0, _ => []
  | fuel + 1, current =>
    match childrenOf pm current with
    | [] => []
    | child :: _ => child :: chainFrom pm fuel child

/-- `_determine_z_order` from `ops/composite.py` (lines 127-190): build the
parent map, require exactly one root, reject shared parents (ambiguous
z-order), then follow the chain from the root and require it to cover all
layers. -/
def determineZOrder (layers : List (String × LayerSpec)) : Except PyErr (List String) := do
  let pm ← buildParentMap layers
  let roots := pm.filterMap (fun q => if q.2 = none then some q.1 else none)
  match roots with
  | [root] =>
    let parents := pm.filterMap (fun q => q.2)
    if parents.any (fun p => 1 < (childrenOf pm p).length) then
      Except.error (.valueError "Ambiguous z-order: multiple layers share parent")
    else
      let zOrder := root :: chainFrom pm pm.length root
      if zOrder.length = layers.length then Except.ok zOrder
      else Except.error (.valueError "Z-order determination incomplete")
  | _ => Except.error (.valueError "Composite must have exactly one root layer")

/-- Opacity conversion from `composite` in `ops/composite.py` (lines 85-93):
`Decimal`, `int`, `float` and numeric strings convert with `float()`
(non-numeric strings raise inside `float`), every other type silently
defaults to 1.0. -/
def convertOpacity : PyVal → Except PyErr ℚ
  | .pyDecimal q => .ok q
  | .pyInt n => .ok (n : ℚ)
  | .pyFloat q => .ok q
  | .pyStr s =>
    match parseFloatLit s with
    | some q => .ok q
    | none => .error (.valueError "could not convert string to float")
  | .pyNone => .ok 1

/-- `int(p * opacity)` from `ops/composite.py` line 103, applied to one
alpha byte; the truncated value is non-negative whenever the opacity has
been clamped to [0, 1], so the byte is recovered with `toNat`. -/
def scaleAlphaByte (o : ℚ) (p : ℕ) : ℕ := (pyTrunc ((p : ℚ) * o)).toNat

/-- Lines 85-104 of `composite`: convert the layer opacity, clamp it to
[0, 1], and when the result is < 1 rescale every byte of the layer's
alpha channel, otherwise keep the layer image unchanged. -/
def layerAlpha (opacityVal : PyVal) (alpha : List ℕ) : Except PyErr (List ℕ) :=
  match convertOpacity opacityVal with
  | .error e => .error e
  | .ok o =>
    let oc := max 0 (min 1 o)
    if oc < 1 then .ok (alpha.map (fun p => scaleAlphaByte oc p))
    else .ok alpha

theorem parseAlignment_valid {al : List Char} {sa pa : Char × Char}
    (h : parseAlignment al = .ok (sa, pa)) :
    validAlignChar sa.1 ∧ validAlignChar sa.2 ∧
      validAlignChar pa.1 ∧ validAlignChar pa.2 := by
  unfold parseAlignment at h
  split at h
  · split at h
    · exact absurd h (by simp)
    · split at h
      · exact absurd h (by simp)
      · split at h
        · rename_i hcond
          injection h with h2
          injection h2 with hself hparent
          subst hself; subst hparent
          simp only [Bool.and_eq_true] at hcond
          exact ⟨hcond.1.1.1, hcond.1.1.2, hcond.1.2, hcond.2⟩
        · exact absurd h (by simp)
  · exact absurd h (by simp)

theorem alignPosition_eq (sa pa : Char) (sw pw : ℕ) (ppos off : ℤ)
    (hsa : validAlignChar sa) (hpa : validAlignChar pa) :
    alignPosition sa pa sw pw ppos off =
      .ok (ppos + anchorOffset pa pw - anchorOffset sa sw + off) := by
  simp only [validAlignChar, Bool.or_eq_true, decide_eq_true_eq] at hsa hpa
  unfold alignPosition anchorOffset
  rcases hpa with (hpa | hpa) | hpa <;> subst hpa <;>
    rcases hsa with (hsa | hsa) | hsa <;> subst hsa <;>
      simp [Bind.bind, Except.bind]

/-- A concrete composite layer mapping whose dict (insertion) order is
root, top, mid while the anchor parent pointers chain root ← mid ← top. -/
def zOrderChainLayers : List (String × LayerSpec) :=
  [("root", ⟨"absolute", none⟩), ("top", ⟨"relative", some "mid"⟩),
   ("mid", ⟨"relative", some "root"⟩)]

/-- C1: against the claim, `composite` does perform topology inference over
the anchor parent pointers: `_determine_z_order` reorders the layers of
`zOrderChainLayers` into parent-chain order root, mid, top, which differs
from the input (list/insertion) order root, top, mid. -/
theorem composite_zorder_is_inferred_not_list_order :
    determineZOrder zOrderChainLayers = .ok ["root", "mid", "top"] ∧
    ["root", "mid", "top"] ≠ zOrderChainLayers.map Prod.fst :=
  ⟨rfl, by decide⟩

/-- C2: against the claim, `_parse_alignment` rejects the at-sign form
"c@c" (raising a ValueError that names the comma form) and accepts the
comma form "c,c", parsing it to self=(center,center), parent=(center,center). -/
theorem parse_alignment_comma_separator_bug :
    parseAlignment ['c', '@', 'c'] =
      .error (.valueError "Alignment string must be self comma parent") ∧
    parseAlignment ['c', ',', 'c'] = .ok (('c', 'c'), ('c', 'c')) :=
  ⟨rfl, rfl⟩

/-- C3: for a relative anchor whose parent is in the placement ledger and
whose alignment string parses, each axis of the resolved position equals
parent anchor point minus self anchor offset plus the explicit pixel
offset, with anchor points given by the start/center/end rule
(`anchorOffset`). -/
theorem relative_position_formula
    (pid : String) (alignStr : List Char) (xv yv : PyVal)
    (selfW selfH : ℕ) (placed : List (String × (ℤ × ℤ × ℕ × ℕ)))
    (px py : ℤ) (pw ph : ℕ) (sa pa : Char × Char) (xOff yOff : ℤ)
    (hlook : placed.lookup pid = some (px, py, pw, ph))
    (halign : parseAlignment alignStr = .ok (sa, pa))
    (hx : pyToInt xv = .ok xOff) (hy : pyToInt yv = .ok yOff) :
    resolvePosition (.relative (some pid) alignStr xv yv) selfW selfH placed =
      .ok (px + anchorOffset pa.1 pw - anchorOffset sa.1 selfW + xOff,
           py + anchorOffset pa.2 ph - anchorOffset sa.2 selfH + yOff) := by
  obtain ⟨hsa1, hsa2, hpa1, hpa2⟩ := parseAlignment_valid halign
  simp [resolvePosition, hlook, hx, hy, halign, Bind.bind, Except.bind,
    alignPosition_eq _ _ _ _ _ _ hsa1 hpa1, alignPosition_eq _ _ _ _ _ _ hsa2 hpa2]

/-- Witness for C3: a 10 by 10 layer centered on a 20 by 20 parent at the
origin with offsets (3, -2) resolves to (8, 3). -/
theorem relative_position_formula_witness :
    resolvePosition (.relative (some "bg") ['c', ',', 'c'] (.pyInt 3) (.pyInt (-2)))
      10 10 [("bg", (0, 0, 20, 20))] = .ok (8, 3) := by
  have h := relative_position_formula "bg" ['c', ',', 'c'] (.pyInt 3) (.pyInt (-2))
    10 10 [("bg", (0, 0, 20, 20))] 0 0 20 20 ('c', 'c') ('c', 'c') 3 (-2)
    rfl rfl rfl rfl
  norm_num [anchorOffset] at h
  exact h

/-- C9: whenever the opacity value converts to a number q (in particular
for q outside [0,1]) the blend step does not fail: the effective opacity
is q clamped to [0,1]; q at least 1 leaves the layer image unchanged and
q at most 0 zeroes every alpha byte. -/
theorem opacity_clamped
    (v : PyVal) (q : ℚ) (alpha : List ℕ)
    (h : convertOpacity v = .ok q) :
    layerAlpha v alpha = .ok (if max 0 (min 1 q) < 1
        then alpha.map (fun p => scaleAlphaByte (max 0 (min 1 q)) p) else alpha) ∧
    (1 ≤ q → layerAlpha v alpha = .ok alpha) ∧
    (q ≤ 0 → layerAlpha v alpha = .ok (alpha.map (fun _ => 0))) := by
  refine ⟨by simp only [layerAlpha, h]; split <;> rfl, fun h1 => ?_, fun h0 => ?_⟩
  · have hmin : min 1 q = 1 := min_eq_left h1
    have hmax : max 0 (min 1 q) = 1 := by rw [hmin]; exact max_eq_right zero_le_one
    simp [layerAlpha, h, hmax]
  · have hmin : min 1 q = q := min_eq_right (le_trans h0 zero_le_one)
    have hmax : max 0 (min 1 q) = 0 := by rw [hmin]; exact max_eq_left h0
    have hscale : ∀ p : ℕ, scaleAlphaByte 0 p = 0 := by
      intro p
      simp [scaleAlphaByte, pyTrunc]
    simp [layerAlpha, h, hmax, hscale]

/-- Witness for C9: opacity 3 leaves the alpha bytes unchanged and
opacity -2 zeroes them; neither raises. -/
theorem opacity_clamped_witness :
    layerAlpha (.pyFloat 3) [5, 255] = .ok [5, 255] ∧
    layerAlpha (.pyFloat (-2)) [5, 255] = .ok ([5, 255].map (fun _ => 0)) :=
  ⟨(opacity_clamped (.pyFloat 3) 3 [5, 255] rfl).2.1 (by norm_num),
   (opacity_clamped (.pyFloat (-2)) (-2) [5, 255] rfl).2.2 (by norm_num)⟩

/-- C10: `_to_int` converts Decimal, float and numeric-string inputs by
truncation toward zero (floor for non-negative, ceiling for negative
values); only a non-numeric string or an unsupported type raises a
ValueError; the string "10.5" becomes 10. -/
theorem to_int_truncates_toward_zero :
    (∀ q : ℚ, pyToInt (.pyDecimal q) = .ok (truncTowardZero q)) ∧
    (∀ q : ℚ, pyToInt (.pyFloat q) = .ok (truncTowardZero q)) ∧
    (∀ (s : List Char) (q : ℚ), parseFloatLit s = some q →
      pyToInt (.pyStr s) = .ok (truncTowardZero q)) ∧
    (∀ s : List Char, parseFloatLit s = none →
      pyToInt (.pyStr s) = .error (.valueError "Cannot convert string to int")) ∧
    pyToInt PyVal.pyNone = .error (.valueError "Cannot convert type to int") ∧
    pyToInt (.pyStr ['1', '0', '.', '5']) = .ok 10 := by
  have hparse : parseFloatLit ['1', '0', '.', '5'] =
      some ((10 : ℚ) + (5 : ℚ) / (10 : ℚ) ^ 1) := rfl
  refine ⟨fun q => by simp [pyToInt, pyTrunc_eq_truncTowardZero],
    fun q => by simp [pyToInt, pyTrunc_eq_truncTowardZero],
    fun s q hs => by simp [pyToInt, hs, pyTrunc_eq_truncTowardZero],
    fun s hs => by simp [pyToInt, hs], rfl, ?_⟩
  simp only [pyToInt, hparse]
  congr 1
  rw [pyTrunc_eq_truncTowardZero, truncTowardZero, if_pos (by norm_num)]
  rw [Int.floor_eq_iff]
  norm_num

/-- Witness for C10: the numeric string "2.5" truncates through `float`,
and the non-numeric string "a" raises. -/
theorem to_int_truncates_toward_zero_witness :
    pyToInt (.pyStr ['2', '.', '5']) =
      .ok (truncTowardZero ((2 : ℚ) + (5 : ℚ) / (10 : ℚ) ^ 1)) ∧
    pyToInt (.pyStr ['a']) = .error (.valueError "Cannot convert string to int") :=
  ⟨to_int_truncates_toward_zero.2.2.1 ['2', '.', '5'] _ rfl,
   to_int_truncates_toward_zero.2.2.2.1 ['a'] rfl⟩

/-- Output of `gfx:layout`: canvas extents and the top-left corner of
every pasted item, in item order. -/
structure LayoutResult where
  width : ℕ
  height : ℕ
  places : List (ℕ × ℕ)
deriving DecidableEq, Repr

/-- Sum of one extent over the items (`sum(... for art in artifacts)`). -/
def sumBy (items : List (ℕ × ℕ)) (f : ℕ × ℕ → ℕ) : ℕ := (items.map f).sum

/-- Maximum of one extent over the items (`max(... for art in artifacts)`);
`foldr max 0` agrees with Python `max` on non-empty lists of naturals. -/
def maxBy (items : List (ℕ × ℕ)) (f : ℕ × ℕ → ℕ) : ℕ := (items.map f).foldr max 0

/-- Cross-axis coordinate of one item (`ops/layout.py` lines 119-124 and
137-142): 0 for start, centered with integer division for center, flush
for end (the final `else` branch, reached for the validated code "e"). -/
def crossCoord (align : String) (total item : ℕ) : ℕ :=
  if align = "s" then 0
  else if align = "c" then (total - item) / 2
  else total - item

/-- The row placement loop (`ops/layout.py` lines 114-130): items advance
along x by their width plus the gap, y from the cross-axis alignment. -/
def placeRow (g : ℕ) (align : String) (totalH : ℕ) :
    List (ℕ × ℕ) → ℕ → List (ℕ × ℕ)
  | [], _ => []
  | wh :: rest, x =>
    (x, crossCoord align totalH wh.2) :: placeRow g align totalH rest (x + wh.1 + g)

/-- The column placement loop (`ops/layout.py` lines 132-148). -/
def placeCol (g : ℕ) (align : String) (totalW : ℕ) :
    List (ℕ × ℕ) → ℕ → List (ℕ × ℕ)
  | [], _ => []
  | wh :: rest, y =>
    (crossCoord align totalW wh.1, y) :: placeCol g align totalW rest (y + wh.2 + g)

/-- `layout` from `ops/layout.py` (lines 12-150), after artifact
extraction: items are the (width, height) pairs of the item artifacts in
list order, `gap` the converted integer gap.  Validation order follows
the source; on success the canvas is the computed tight bounding box with
the placement loop's coordinates.  After the sign check the gap arithmetic
stays in ℕ, where Python's integer operations coincide. -/
def layoutRun (direction align : String) (gap : ℤ) (items : List (ℕ × ℕ)) :
    Except PyErr LayoutResult :=
  if ¬(direction = "row" ∨ direction = "column") then
    .error (.valueError "direction must be row or column")
  else if ¬(align = "s" ∨ align = "c" ∨ align = "e") then
    .error (.valueError "align must be s, c, or e")
  else if gap < 0 then .error (.valueError "gap must be non-negative")
  else if items = [] then .error (.valueError "items must contain at least one item")
  else
    let g := gap.toNat
    let totalW := if direction = "row" then sumBy items Prod.fst + g * (items.length - 1)
      else maxBy items Prod.fst
    let totalH := if direction = "row" then maxBy items Prod.snd
      else sumBy items Prod.snd + g * (items.length - 1)
    if totalW = 0 ∨ totalH = 0 then
      .error (.valueError "Layout dimensions invalid")
    else if direction = "row" then
      .ok ⟨totalW, totalH, placeRow g align totalH items 0⟩
    else
      .ok ⟨totalW, totalH, placeCol g align totalW items 0⟩

theorem placeRow_getElem (g : ℕ) (align : String) (totalH : ℕ)
    (items : List (ℕ × ℕ)) : ∀ (x0 i : ℕ) (wh : ℕ × ℕ),
      items[i]? = some wh →
      (placeRow g align totalH items x0)[i]? =
        some (x0 + (sumBy (items.take i) Prod.fst + g * i),
          crossCoord align totalH wh.2) := by
  induction items with
  | nil => intro x0 i wh h; simp at h
  | cons wh0 rest ih =>
    intro x0 i wh h
    cases i with
    | zero =>
      simp only [List.getElem?_cons_zero, Option.some.injEq] at h
      subst h
      simp [placeRow, sumBy]
    | succ i =>
      rw [List.getElem?_cons_succ] at h
      have hrec := ih (x0 + wh0.1 + g) i wh h
      simp only [placeRow, List.getElem?_cons_succ]
      rw [hrec]
      congr 2
      simp only [List.take_succ_cons, sumBy, List.map_cons, List.sum_cons]
      ring

theorem placeCol_getElem (g : ℕ) (align : String) (totalW : ℕ)
    (items : List (ℕ × ℕ)) : ∀ (y0 i : ℕ) (wh : ℕ × ℕ),
      items[i]? = some wh →
      (placeCol g align totalW items y0)[i]? =
        some (crossCoord align totalW wh.1,
          y0 + (sumBy (items.take i) Prod.snd + g * i)) := by
  induction items with
  | nil => intro y0 i wh h; simp at h
  | cons wh0 rest ih =>
    intro y0 i wh h
    cases i with
    | zero =>
      simp only [List.getElem?_cons_zero, Option.some.injEq] at h
      subst h
      simp [placeCol, sumBy]
    | succ i =>
      rw [List.getElem?_cons_succ] at h
      have hrec := ih (y0 + wh0.2 + g) i wh h
      simp only [placeCol, List.getElem?_cons_succ]
      rw [hrec]
      congr 2
      simp only [List.take_succ_cons, sumBy, List.map_cons, List.sum_cons]
      ring

theorem le_maxBy (items : List (ℕ × ℕ)) (f : ℕ × ℕ → ℕ) :
    ∀ wh ∈ items, f wh ≤ maxBy items f := by
  induction items with
  | nil => intro wh h; simp at h
  | cons wh0 rest ih =>
    intro wh h
    rcases List.mem_cons.mp h with h | h
    · subst h; simp [maxBy, le_max_iff]
    · have := ih wh h
      simp only [maxBy, List.map_cons, List.foldr_cons, le_max_iff]
      right
      exact this

/-- C4: for a non-empty item list with non-negative integer gap (and
positive item extents, which the source requires before drawing), flow
layout succeeds with main-axis extent the sum of item main extents plus
gap times (count - 1) and cross-axis extent the maximum item cross
extent; item i sits at main position (sum of earlier main extents) +
gap * i, with cross position 0 / floor((cross - item)/2) / (cross - item)
for start / center / end, in both row and column directions. -/
theorem layout_flow_extents_and_places
    (align : String) (gap : ℤ) (items : List (ℕ × ℕ))
    (halign : align = "s" ∨ align = "c" ∨ align = "e")
    (hgap : 0 ≤ gap) (hne : items ≠ [])
    (hpos : ∀ wh ∈ items, 0 < wh.1 ∧ 0 < wh.2) :
    (∃ res, layoutRun "row" align gap items = .ok res ∧
      res.width = sumBy items Prod.fst + gap.toNat * (items.length - 1) ∧
      res.height = maxBy items Prod.snd ∧
      ∀ (i : ℕ) (wh : ℕ × ℕ), items[i]? = some wh →
        res.places[i]? = some
          (sumBy (items.take i) Prod.fst + gap.toNat * i,
           if align = "s" then 0
           else if align = "c" then (res.height - wh.2) / 2
           else res.height - wh.2)) ∧
    (∃ res, layoutRun "column" align gap items = .ok res ∧
      res.height = sumBy items Prod.snd + gap.toNat * (items.length - 1) ∧
      res.width = maxBy items Prod.fst ∧
      ∀ (i : ℕ) (wh : ℕ × ℕ), items[i]? = some wh →
        res.places[i]? = some
          (if align = "s" then 0
           else if align = "c" then (res.width - wh.1) / 2
           else res.width - wh.1,
           sumBy (items.take i) Prod.snd + gap.toNat * i)) := by
  obtain ⟨wh0, rest, rfl⟩ := List.exists_cons_of_ne_nil hne
  have hW : 0 < sumBy (wh0 :: rest) Prod.fst + gap.toNat * ((wh0 :: rest).length - 1) := by
    have : 0 < wh0.1 := (hpos wh0 (List.mem_cons_self _ _)).1
    simp only [sumBy, List.map_cons, List.sum_cons]
    omega
  have hH : 0 < sumBy (wh0 :: rest) Prod.snd + gap.toNat * ((wh0 :: rest).length - 1) := by
    have : 0 < wh0.2 := (hpos wh0 (List.mem_cons_self _ _)).2
    simp only [sumBy, List.map_cons, List.sum_cons]
    omega
  have hMH : 0 < maxBy (wh0 :: rest) Prod.snd :=
    lt_of_lt_of_le (hpos wh0 (List.mem_cons_self _ _)).2
      (le_maxBy _ _ wh0 (List.mem_cons_self _ _))
  have hMW : 0 < maxBy (wh0 :: rest) Prod.fst :=
    lt_of_lt_of_le (hpos wh0 (List.mem_cons_self _ _)).1
      (le_maxBy _ _ wh0 (List.mem_cons_self _ _))
  constructor
  · have heq : layoutRun "row" align gap (wh0 :: rest) =
        .ok ⟨sumBy (wh0 :: rest) Prod.fst + gap.toNat * ((wh0 :: rest).length - 1),
          maxBy (wh0 :: rest) Prod.snd,
          placeRow gap.toNat align (maxBy (wh0 :: rest) Prod.snd) (wh0 :: rest) 0⟩ := by
      unfold layoutRun
      rw [if_neg (by simp), if_neg (not_not_intro halign),
        if_neg (not_lt.mpr hgap), if_neg (by simp)]
      simp only [eq_self_iff_true, if_true]
      rw [if_neg (by omega)]
    refine ⟨_, heq, rfl, rfl, ?_⟩
    intro i wh h
    have hplace := placeRow_getElem gap.toNat align (maxBy (wh0 :: rest) Prod.snd)
      (wh0 :: rest) 0 i wh h
    rw [hplace]
    simp [crossCoord]
  · have heq : layoutRun "column" align gap (wh0 :: rest) =
        .ok ⟨maxBy (wh0 :: rest) Prod.fst,
          sumBy (wh0 :: rest) Prod.snd + gap.toNat * ((wh0 :: rest).length - 1),
          placeCol gap.toNat align (maxBy (wh0 :: rest) Prod.fst) (wh0 :: rest) 0⟩ := by
      unfold layoutRun
      rw [if_neg (by simp), if_neg (not_not_intro halign),
        if_neg (not_lt.mpr hgap), if_neg (by simp)]
      simp only [show (("column" : String) = "row") = False from eq_false (by decide),
        if_false]
      rw [if_neg (by omega)]
    refine ⟨_, heq, rfl, rfl, ?_⟩
    intro i wh h
    have hplace := placeCol_getElem gap.toNat align (maxBy (wh0 :: rest) Prod.fst)
      (wh0 :: rest) 0 i wh h
    rw [hplace]
    simp [crossCoord]

/-- Witness for C4: the spec's worked example, a row of items sized
20 by 30, 20 by 20, 20 by 10 with gap 5 and center alignment, yields a
70 by 30 output with items at x = 0, 25, 50, each vertically centered. -/
theorem layout_flow_witness :
    layoutRun "row" "c" 5 [(20, 30), (20, 20), (20, 10)] =
      .ok ⟨70, 30, [(0, 0), (25, 5), (50, 10)]⟩ ∧
    (∃ res, layoutRun "row" "c" 5 [(20, 30), (20, 20), (20, 10)] = .ok res ∧
      res.width = sumBy [(20, 30), (20, 20), (20, 10)] Prod.fst +
        (5 : ℤ).toNat * ([((20 : ℕ), (30 : ℕ)), (20, 20), (20, 10)].length - 1) ∧
      res.height = maxBy [(20, 30), (20, 20), (20, 10)] Prod.snd ∧
      ∀ (i : ℕ) (wh : ℕ × ℕ), [((20 : ℕ), (30 : ℕ)), (20, 20), (20, 10)][i]? = some wh →
        res.places[i]? = some
          (sumBy ([((20 : ℕ), (30 : ℕ)), (20, 20), (20, 10)].take i) Prod.fst +
            (5 : ℤ).toNat * i,
           if "c" = "s" then 0
           else if "c" = "c" then (res.height - wh.2) / 2
           else res.height - wh.2)) :=
  ⟨rfl,
   (layout_flow_extents_and_places "c" 5 [(20, 30), (20, 20), (20, 10)]
     (Or.inr (Or.inl rfl)) (by norm_num) (by decide) (by decide)).1⟩

/-- `n.to_bytes(len, byteorder="big")` from Python, big-endian with the
least significant byte last; Python raises OverflowError when the value
does not fit, which `intToBytes` checks up front. -/
def natToBEBytes : ℕ → ℕ → List ℕ
  | 0, _ => []
  | len + 1, n => natToBEBytes len (n / 256) ++ [n % 256]

/-- `int.to_bytes` including the OverflowError on out-of-range values. -/
def intToBytes (len n : ℕ) : Except PyErr (List ℕ) :=
  if n < 256 ^ len then .ok (natToBEBytes len n)
  else .error (.overflowError "int too big to convert")

/-- `int.from_bytes(bs, byteorder="big")`: also accepts short byte strings
(the empty string reads as 0), exactly as Python does. -/
def natFromBEBytes (bs : List ℕ) : ℕ := bs.foldl (fun a b => a * 256 + b) 0

/-- `stream.read(k)` on a sequential binary stream: returns up to `k`
bytes and the rest of the stream; short reads happen at end of stream. -/
def streamRead (k : ℕ) (s : List ℕ) : List ℕ × List ℕ := (s.take k, s.drop k)

/-- `str.encode("utf-8")` for one character (a unicode scalar value):
1 to 4 bytes depending on the code point range. -/
def utf8EncodeChar (c : Char) : List ℕ :=
  let n := c.toNat
  if n < 128 then [n]
  else if n < 2048 then [192 + n / 64, 128 + n % 64]
  else if n < 65536 then [224 + n / 4096, 128 + n / 64 % 64, 128 + n % 64]
  else [240 + n / 262144, 128 + n / 4096 % 64, 128 + n / 64 % 64, 128 + n % 64]

/-- `str.encode("utf-8")` on a string modelled as a character list. -/
def utf8Encode (cs : List Char) : List ℕ :=
  cs.foldr (fun c acc => utf8EncodeChar c ++ acc) []

/-- `bytes.decode("utf-8")`, one scalar per step: ASCII, 2-, 3- and
4-byte sequences with continuation bytes in [128, 192) and the standard
rejections (lead bytes 0x80-0xC1 and 0xF5-0xFF, overlong encodings,
surrogates, truncated sequences).  `none` models `UnicodeDecodeError`.
The fuel argument bounds the number of decoded characters; each
character consumes at least one byte, so the byte count is enough. -/
def utf8DecodeAux : ℕ → List ℕ → Option (List Char)
  | _, [] => some []
  | 0, _ :: _ => none
  | fuel + 1, b0 :: rest =>
    if b0 < 128 then (utf8DecodeAux fuel rest).map (fun cs => Char.ofNat b0 :: cs)
    else if b0 < 194 then none
    else if b0 < 224 then
      match rest with
      | b1 :: rest2 =>
        if 128 ≤ b1 ∧ b1 < 192 then
          (utf8DecodeAux fuel rest2).map
            (fun cs => Char.ofNat ((b0 - 192) * 64 + (b1 - 128)) :: cs)
        else none
      | [] => none
    else if b0 < 240 then
      match rest with
      | b1 :: b2 :: rest2 =>
        if (128 ≤ b1 ∧ b1 < 192) ∧ (128 ≤ b2 ∧ b2 < 192) ∧
            (b0 = 224 → 160 ≤ b1) ∧ (b0 = 237 → b1 < 160) then
          (utf8DecodeAux fuel rest2).map
            (fun cs => Char.ofNat ((b0 - 224) * 4096 + (b1 - 128) * 64 + (b2 - 128)) :: cs)
        else none
      | _ => none
    else if b0 < 245 then
      match rest with
      | b1 :: b2 :: b3 :: rest2 =>
        if (128 ≤ b1 ∧ b1 < 192) ∧ (128 ≤ b2 ∧ b2 < 192) ∧ (128 ≤ b3 ∧ b3 < 192) ∧
            (b0 = 240 → 144 ≤ b1) ∧ (b0 = 244 → b1 < 144) then
          (utf8DecodeAux fuel rest2).map
            (fun cs => Char.ofNat ((b0 - 240) * 262144 + (b1 - 128) * 4096 +
              (b2 - 128) * 64 + (b3 - 128)) :: cs)
        else none
      | _ => none
    else none

/-- `bytes.decode("utf-8")` on a byte list. -/
def utf8Decode (s : List ℕ) : Option (List Char) := utf8DecodeAux s.length s

/-- `BlobArtifact` from `artifacts.py`: raw bytes plus a media type
string (a Python `str`, modelled as a character list). -/
structure BlobArtifact where
  data : List ℕ
  contentType : List Char
deriving DecidableEq, Repr

/-- `BlobArtifact.get_stable_hash`, parametrized by the digest function:
the hash is a function of the raw bytes only. -/
def blobStableHash (digest : List ℕ → List ℕ) (b : BlobArtifact) : List ℕ :=
  digest b.data

/-- `BlobArtifact.to_stream` (`artifacts.py` lines 84-90): 8-byte
big-endian length of the UTF-8 encoded media type, the media type bytes,
8-byte big-endian length of the payload, the payload bytes. -/
def blobToStream (b : BlobArtifact) : Except PyErr (List ℕ) :=
  match intToBytes 8 (utf8Encode b.contentType).length, intToBytes 8 b.data.length with
  | .ok ctLen, .ok dataLen => .ok (ctLen ++ utf8Encode b.contentType ++ dataLen ++ b.data)
  | .error e, _ => .error e
  | _, .error e => .error e

/-- `BlobArtifact.from_stream` (`artifacts.py` lines 92-99): read the two
length-prefixed fields back.  Reads past end of stream return the bytes
that are left, so many truncated streams produce a partial artifact, but
`.decode("utf-8")` on media-type bytes that are not valid UTF-8 (for
example a read cut short inside a multi-byte character) raises
`UnicodeDecodeError`, a subclass of `ValueError`. -/
def blobFromStream (s : List ℕ) : Except PyErr (BlobArtifact × List ℕ) :=
  let r1 := streamRead 8 s
  let ctLen := natFromBEBytes r1.1
  let r2 := streamRead ctLen r1.2
  match utf8Decode r2.1 with
  | none => .error (.valueError "invalid utf-8 in content type")
  | some ct =>
    let r3 := streamRead 8 r2.2
    let dataLen := natFromBEBytes r3.1
    let r4 := streamRead dataLen r3.2
    .ok (⟨r4.1, ct⟩, r4.2)

/-- Pixel grid of an image already normalized to RGBA: rows of
(r, g, b, a) byte quadruples. -/
abbrev Img := List (List (ℕ × ℕ × ℕ × ℕ))

/-- The PNG encoder and decoder that `artifacts.py` delegates to PIL for
(`image.save(..., format="PNG")` and `Image.open`); `dec` returns `none`
when PIL cannot identify the bytes as an image. -/
structure PngCodec where
  enc : Img → List ℕ
  dec : List ℕ → Option Img

/-- `ImageArtifact` from `artifacts.py`: the constructor normalizes to
RGBA mode, which the `Img` representation makes intrinsic. -/
structure ImageArtifact where
  img : Img
deriving DecidableEq, Repr

/-- `ImageArtifact.get_stable_hash`, parametrized by the digest function:
a function of the canonical PNG bytes. -/
def imageStableHash (c : PngCodec) (digest : List ℕ → List ℕ)
    (a : ImageArtifact) : List ℕ :=
  digest (c.enc a.img)

/-- `ImageArtifact.to_stream` (`artifacts.py` lines 43-47): 8-byte
big-endian length of the canonical PNG bytes, then those bytes. -/
def imageToStream (c : PngCodec) (a : ImageArtifact) : Except PyErr (List ℕ) :=
  match intToBytes 8 (c.enc a.img).length with
  | .ok lenBytes => .ok (lenBytes ++ c.enc a.img)
  | .error e => .error e

/-- `ImageArtifact.from_stream` (`artifacts.py` lines 49-55): read the
length, read that many bytes, open them as an image (an unreadable
buffer raises inside PIL), convert to RGBA (the identity here). -/
def imageFromStream (c : PngCodec) (s : List ℕ) :
    Except PyErr (ImageArtifact × List ℕ) :=
  let r1 := streamRead 8 s
  let len := natFromBEBytes r1.1
  let r2 := streamRead len r1.2
  match c.dec r2.1 with
  | some img => .ok (⟨img⟩, r2.2)
  | none => .error (.valueError "cannot identify image file")

theorem natToBEBytes_length (len : ℕ) : ∀ n, (natToBEBytes len n).length = len := by
  induction len with
  | zero => intro n; rfl
  | succ len ih =>
    intro n
    simp [natToBEBytes, ih]

theorem natFromBEBytes_append_singleton (bs : List ℕ) (b : ℕ) :
    natFromBEBytes (bs ++ [b]) = natFromBEBytes bs * 256 + b := by
  simp [natFromBEBytes, List.foldl_append]

theorem natFromBEBytes_natToBEBytes (len : ℕ) :
    ∀ n, n < 256 ^ len → natFromBEBytes (natToBEBytes len n) = n := by
  induction len with
  | zero =>
    intro n hn
    interval_cases n
    rfl
  | succ len ih =>
    intro n hn
    have hdiv : n / 256 < 256 ^ len := by
      rw [Nat.div_lt_iff_lt_mul (by norm_num)]
      calc n < 256 ^ (len + 1) := hn
        _ = 256 ^ len * 256 := by ring
    rw [natToBEBytes, natFromBEBytes_append_singleton, ih (n / 256) hdiv]
    omega

theorem streamRead_append_exact (bs rest : List ℕ) :
    streamRead bs.length (bs ++ rest) = (bs, rest) := by
  simp [streamRead]

theorem streamRead_of_length (k : ℕ) (bs rest : List ℕ) (h : bs.length = k) :
    streamRead k (bs ++ rest) = (bs, rest) := by
  subst h
  exact streamRead_append_exact bs rest

theorem streamRead_all (l : List ℕ) : streamRead l.length l = (l, []) := by
  simp [streamRead]

theorem char_toNat_valid (c : Char) :
    c.toNat < 55296 ∨ (57343 < c.toNat ∧ c.toNat < 1114112) := by
  have h := c.valid
  unfold UInt32.isValidChar Nat.isValidChar at h
  rcases h with h | ⟨h1, h2⟩
  · exact Or.inl h
  · exact Or.inr ⟨h1, h2⟩

theorem utf8EncodeChar_ne_nil (c : Char) : utf8EncodeChar c ≠ [] := by
  unfold utf8EncodeChar
  dsimp only
  split_ifs <;> simp

theorem length_le_utf8Encode_length (cs : List Char) :
    cs.length ≤ (utf8Encode cs).length := by
  induction cs with
  | nil => simp [utf8Encode]
  | cons c rest ih =>
    have hc : 1 ≤ (utf8EncodeChar c).length :=
      Nat.one_le_iff_ne_zero.mpr (by simpa using utf8EncodeChar_ne_nil c)
    simp only [utf8Encode, List.foldr_cons, List.length_append, List.length_cons]
    have : rest.length ≤ (utf8Encode rest).length := ih
    simp only [utf8Encode] at this
    omega

theorem utf8DecodeAux_encodeChar (c : Char) (tail : List ℕ) (fuel : ℕ) :
    utf8DecodeAux (fuel + 1) (utf8EncodeChar c ++ tail) =
      (utf8DecodeAux fuel tail).map (fun cs => c :: cs) := by
  have hv := char_toNat_valid c
  have hofNat := Char.ofNat_toNat c
  unfold utf8EncodeChar
  dsimp only
  split_ifs with h1 h2 h3
  · -- 1-byte sequence
    simp only [List.append_eq, List.cons_append, List.nil_append, utf8DecodeAux]
    rw [if_pos h1, hofNat]
  · -- 2-byte sequence
    simp only [List.append_eq, List.cons_append, List.nil_append, utf8DecodeAux]
    rw [if_neg (by omega), if_neg (by omega), if_pos (by omega), if_pos (by omega)]
    have hval : (192 + c.toNat / 64 - 192) * 64 + (128 + c.toNat % 64 - 128) = c.toNat := by
      omega
    rw [hval, hofNat]
  · -- 3-byte sequence
    simp only [List.append_eq, List.cons_append, List.nil_append, utf8DecodeAux]
    rw [if_neg (by omega), if_neg (by omega), if_neg (by omega), if_pos (by omega),
      if_pos (by omega)]
    have hval : (224 + c.toNat / 4096 - 224) * 4096 + (128 + c.toNat / 64 % 64 - 128) * 64 +
        (128 + c.toNat % 64 - 128) = c.toNat := by
      omega
    rw [hval, hofNat]
  · -- 4-byte sequence
    simp only [List.append_eq, List.cons_append, List.nil_append, utf8DecodeAux]
    rw [if_neg (by omega), if_neg (by omega), if_neg (by omega), if_neg (by omega),
      if_pos (by omega), if_pos (by omega)]
    have hval : (240 + c.toNat / 262144 - 240) * 262144 +
        (128 + c.toNat / 4096 % 64 - 128) * 4096 +
        (128 + c.toNat / 64 % 64 - 128) * 64 + (128 + c.toNat % 64 - 128) = c.toNat := by
      omega
    rw [hval, hofNat]

theorem utf8DecodeAux_encode (cs : List Char) : ∀ fuel, cs.length ≤ fuel →
    utf8DecodeAux fuel (utf8Encode cs) = some cs := by
  induction cs with
  | nil =>
    intro fuel _
    cases fuel <;> rfl
  | cons c rest ih =>
    intro fuel hfuel
    obtain ⟨f, rfl⟩ : ∃ f, fuel = f + 1 := by
      cases fuel with
      | zero => exact absurd hfuel (by simp)
      | succ f => exact ⟨f, rfl⟩
    have hstep := utf8DecodeAux_encodeChar c (utf8Encode rest) f
    have hrest := ih f (by simpa using hfuel)
    calc utf8DecodeAux (f + 1) (utf8Encode (c :: rest))
        = utf8DecodeAux (f + 1) (utf8EncodeChar c ++ utf8Encode rest) := rfl
      _ = (utf8DecodeAux f (utf8Encode rest)).map (fun l => c :: l) := hstep
      _ = some (c :: rest) := by rw [hrest]; rfl

theorem utf8Decode_encode (cs : List Char) : utf8Decode (utf8Encode cs) = some cs :=
  utf8DecodeAux_encode cs (utf8Encode cs).length (length_le_utf8Encode_length cs)

/-- C5: encoding then decoding round-trips exactly, for both artifact
kinds.  A blob whose streams encode (field lengths below 2^64) decodes to
an equal artifact with the whole stream consumed, hence identical raw
bytes and stable hash under any digest; an image whose canonical PNG the
codec decodes back (PIL's contract for lossless PNG on RGBA images)
decodes to an equal artifact, hence identical dimensions, channel format,
canonical bytes and hash. -/
theorem artifact_stream_round_trip :
    (∀ (b : BlobArtifact) (s : List ℕ), blobToStream b = .ok s →
      blobFromStream s = .ok (b, []) ∧
      ∀ digest : List ℕ → List ℕ,
        (blobFromStream s).map (fun p => blobStableHash digest p.1) =
          .ok (blobStableHash digest b)) ∧
    (∀ (c : PngCodec) (a : ImageArtifact) (s : List ℕ),
      c.dec (c.enc a.img) = some a.img →
      imageToStream c a = .ok s →
      imageFromStream c s = .ok (a, []) ∧
      ∀ digest : List ℕ → List ℕ,
        (imageFromStream c s).map (fun p => imageStableHash c digest p.1) =
          .ok (imageStableHash c digest a)) := by
  constructor
  · intro b s hs
    unfold blobToStream at hs
    cases h1 : intToBytes 8 (utf8Encode b.contentType).length with
    | error e =>
      rw [h1] at hs
      cases h2 : intToBytes 8 b.data.length <;> rw [h2] at hs <;> exact absurd hs (by simp)
    | ok ctLen =>
      cases h2 : intToBytes 8 b.data.length with
      | error e => rw [h1, h2] at hs; exact absurd hs (by simp)
      | ok dataLen =>
        rw [h1, h2] at hs
        injection hs with hs
        unfold intToBytes at h1 h2
        split at h1
        case isFalse => exact absurd h1 (by simp)
        case isTrue hlt1 =>
        split at h2
        case isFalse => exact absurd h2 (by simp)
        case isTrue hlt2 =>
        injection h1 with h1
        injection h2 with h2
        have hlen1 : ctLen.length = 8 := by rw [← h1]; exact natToBEBytes_length 8 _
        have hlen2 : dataLen.length = 8 := by rw [← h2]; exact natToBEBytes_length 8 _
        have hv1 : natFromBEBytes ctLen = (utf8Encode b.contentType).length := by
          rw [← h1]; exact natFromBEBytes_natToBEBytes 8 _ hlt1
        have hv2 : natFromBEBytes dataLen = b.data.length := by
          rw [← h2]; exact natFromBEBytes_natToBEBytes 8 _ hlt2
        have hmain : blobFromStream s = .ok (b, []) := by
          rw [← hs]
          unfold blobFromStream
          rw [List.append_assoc, List.append_assoc,
            streamRead_of_length 8 ctLen _ hlen1]
          simp only [hv1]
          rw [streamRead_of_length (utf8Encode b.contentType).length
            (utf8Encode b.contentType) _ rfl]
          simp only [utf8Decode_encode]
          rw [streamRead_of_length 8 dataLen _ hlen2]
          simp only [hv2]
          rw [show streamRead b.data.length b.data = (b.data, []) from
            streamRead_all b.data]
        exact ⟨hmain, fun digest => by rw [hmain]; rfl⟩
  · intro c a s hdec hs
    unfold imageToStream at hs
    cases h1 : intToBytes 8 (c.enc a.img).length with
    | error e => rw [h1] at hs; exact absurd hs (by simp)
    | ok lenBytes =>
      rw [h1] at hs
      injection hs with hs
      unfold intToBytes at h1
      split at h1
      case isFalse => exact absurd h1 (by simp)
      case isTrue hlt =>
      injection h1 with h1
      have hlen : lenBytes.length = 8 := by rw [← h1]; exact natToBEBytes_length 8 _
      have hv : natFromBEBytes lenBytes = (c.enc a.img).length := by
        rw [← h1]; exact natFromBEBytes_natToBEBytes 8 _ hlt
      have hmain : imageFromStream c s = .ok (a, []) := by
        rw [← hs]
        unfold imageFromStream
        rw [streamRead_of_length 8 lenBytes _ hlen]
        simp only [hv]
        rw [show streamRead (c.enc a.img).length (c.enc a.img) = (c.enc a.img, []) from
          streamRead_all _]
        simp only [hdec]
      exact ⟨hmain, fun digest => by rw [hmain]; rfl⟩

/-- Witness for C5: a three-byte blob with media type "txt" round-trips,
and so does a one-pixel image under a codec that restores its pixel grid
from its canonical byte string. -/
theorem artifact_stream_round_trip_witness :
    blobFromStream [0, 0, 0, 0, 0, 0, 0, 3, 116, 120, 116, 0, 0, 0, 0, 0, 0, 0, 3, 1, 2, 3] =
      .ok (⟨[1, 2, 3], ['t', 'x', 't']⟩, []) ∧
    imageFromStream ⟨fun _ => [7], fun _ => some [[(9, 9, 9, 9)]]⟩
      [0, 0, 0, 0, 0, 0, 0, 1, 7] = .ok (⟨[[(9, 9, 9, 9)]]⟩, []) :=
  ⟨(artifact_stream_round_trip.1 ⟨[1, 2, 3], ['t', 'x', 't']⟩
      [0, 0, 0, 0, 0, 0, 0, 3, 116, 120, 116, 0, 0, 0, 0, 0, 0, 0, 3, 1, 2, 3] rfl).1,
   (artifact_stream_round_trip.2 ⟨fun _ => [7], fun _ => some [[(9, 9, 9, 9)]]⟩
      ⟨[[(9, 9, 9, 9)]]⟩ [0, 0, 0, 0, 0, 0, 0, 1, 7] rfl rfl).1⟩

/-- C6 counterexample: decoding the empty (maximally truncated) stream
does not fail at all; `BlobArtifact.from_stream` returns a partial
(empty) artifact, against the claim that a DecodeError is raised and no
partial artifact is returned. -/
theorem blob_truncated_decode_returns_partial_artifact :
    blobFromStream [] = .ok (⟨[], []⟩, []) := rfl

/-- C6 amended: no DecodeError exists in the code, and decoding a
truncated or malformed stream behaves in one of two ways, neither the
claimed one.  Either the short reads go unnoticed and a partial artifact
is silently returned (a declared-but-absent media type; a media type
with its payload missing), or, when the media-type bytes are not valid
UTF-8 (the invalid byte 0xFF; a 2-byte character cut off by truncation),
`.decode("utf-8")` raises UnicodeDecodeError, a ValueError subclass.  A
malformed image stream fails inside PIL with its own exception
(modelled ValueError), again not a DecodeError. -/
theorem blob_truncated_decode_amended :
    blobFromStream [0, 0, 0, 0, 0, 0, 0, 10] = .ok (⟨[], []⟩, []) ∧
    blobFromStream [0, 0, 0, 0, 0, 0, 0, 2, 97, 98] = .ok (⟨[], ['a', 'b']⟩, []) ∧
    blobFromStream [0, 0, 0, 0, 0, 0, 0, 1, 255] =
      .error (.valueError "invalid utf-8 in content type") ∧
    blobFromStream [0, 0, 0, 0, 0, 0, 0, 2, 195] =
      .error (.valueError "invalid utf-8 in content type") ∧
    imageFromStream ⟨fun _ => [], fun _ => none⟩ [0, 0, 0, 0, 0, 0, 0, 4, 1, 2] =
      .error (.valueError "cannot identify image file") :=
  ⟨rfl, rfl, rfl, rfl, rfl⟩

/-- A graph-node parameter value (`recipes/drop_shadow.py`): an integer,
an exact Decimal, a `ref` to another node, or an RGBA color tuple. -/
inductive PVal where
  | intV (n : ℤ)
  | ratV (q : ℚ)
  | refV (nodeId : String)
  | colorV (c : ℤ × ℤ × ℤ × ℤ)
deriving DecidableEq, Repr

/-- A pipeline `Node`: operation name, parameters, dependencies. -/
structure Node where
  opName : String
  params : List (String × PVal)
  deps : List String
deriving DecidableEq, Repr

/-- A `SubGraphNode`: the private graph (in insertion order), its
designated output node, plus the outer parameters and dependencies. -/
structure SubGraphNode where
  params : List (String × PVal)
  deps : List String
  graph : List (String × Node)
  output : String
deriving DecidableEq, Repr

/-- `drop_shadow` from `recipes/drop_shadow.py` (lines 12-97): alpha
extraction, padding by `ceil(3 * sigma) + radius` on every side, then
optional dilation (radius > 0), optional blur (sigma > 0), recoloring,
and optional translation (dx or dy nonzero), threading `prev` exactly as
the source does.  `sigma` is the exact value of the `Decimal` argument. -/
def dropShadow (source : String) (dx dy radius : ℤ) (sigma : ℚ)
    (color : ℤ × ℤ × ℤ × ℤ) : SubGraphNode :=
  let pad : ℤ := ⌈(3 : ℚ) * sigma⌉ + radius
  let nodes1 : List (String × Node) :=
    [("alpha", ⟨"gfx:extract_alpha", [("image", .refV "source")], ["source"]⟩),
     ("padded", ⟨"gfx:pad",
       [("image", .refV "alpha"), ("left", .intV pad), ("top", .intV pad),
        ("right", .intV pad), ("bottom", .intV pad)], ["alpha"]⟩)]
  let prev1 := "padded"
  let step2 : List (String × Node) × String :=
    if 0 < radius then
      (nodes1 ++ [("dilated", ⟨"gfx:dilate",
        [("image", .refV prev1), ("radius", .intV radius)], [prev1]⟩)], "dilated")
    else (nodes1, prev1)
  let step3 : List (String × Node) × String :=
    if 0 < sigma then
      (step2.1 ++ [("blurred", ⟨"gfx:gaussian_blur",
        [("image", .refV step2.2), ("sigma", .ratV sigma)], [step2.2]⟩)], "blurred")
    else step2
  let step4 : List (String × Node) × String :=
    (step3.1 ++ [("colored", ⟨"gfx:colorize",
      [("image", .refV step3.2), ("color", .colorV color)], [step3.2]⟩)], "colored")
  let step5 : List (String × Node) × String :=
    if dx ≠ 0 ∨ dy ≠ 0 then
      (step4.1 ++ [("offset", ⟨"gfx:translate",
        [("image", .refV step4.2), ("dx", .intV dx), ("dy", .intV dy)], [step4.2]⟩)],
        "offset")
    else step4
  ⟨[("source", .refV source)], [source], step5.1, step5.2⟩

/-- Does the graph contain a node running the given operation? -/
def hasOp (g : List (String × Node)) (op : String) : Bool :=
  g.any (fun p => p.2.opName = op)

/-- The parameter named `field` of the graph node named `nodeId`. -/
def nodeParam (g : List (String × Node)) (nodeId field : String) : Option PVal := do
  let node ← g.lookup nodeId
  node.params.lookup field

/-- C7: for every parameter combination of the drop-shadow recipe, a
dilation node is emitted iff the spread radius is positive, a blur node
iff sigma is positive, a translation node iff dx or dy is nonzero, and
the pad node pads every side by `ceil(3 * sigma) + radius`. -/
theorem drop_shadow_minimal_pipeline
    (source : String) (dx dy radius : ℤ) (sigma : ℚ) (color : ℤ × ℤ × ℤ × ℤ) :
    (hasOp (dropShadow source dx dy radius sigma color).graph "gfx:dilate"
      ↔ 0 < radius) ∧
    (hasOp (dropShadow source dx dy radius sigma color).graph "gfx:gaussian_blur"
      ↔ 0 < sigma) ∧
    (hasOp (dropShadow source dx dy radius sigma color).graph "gfx:translate"
      ↔ (dx ≠ 0 ∨ dy ≠ 0)) ∧
    (∀ side ∈ ["left", "top", "right", "bottom"],
      nodeParam (dropShadow source dx dy radius sigma color).graph "padded" side =
        some (.intV (⌈(3 : ℚ) * sigma⌉ + radius))) := by
  unfold dropShadow
  dsimp only
  split_ifs <;> simp_all [hasOp, nodeParam, List.lookup, not_or]

/-- Witness for C7: with all no-op parameters no translate node is
emitted, and with radius 2 and sigma 7/2 the pad node pads the left side
by `ceil(3 * 7/2) + 2`. -/
theorem drop_shadow_minimal_pipeline_witness :
    (hasOp (dropShadow "src" 0 0 0 0 (0, 0, 0, 180)).graph "gfx:translate"
      ↔ ((0 : ℤ) ≠ 0 ∨ (0 : ℤ) ≠ 0)) ∧
    nodeParam (dropShadow "src" 0 0 2 (7 / 2) (0, 0, 0, 180)).graph "padded" "left" =
      some (.intV (⌈(3 : ℚ) * (7 / 2)⌉ + 2)) :=
  ⟨(drop_shadow_minimal_pipeline "src" 0 0 0 0 (0, 0, 0, 180)).2.2.1,
   (drop_shadow_minimal_pipeline "src" 0 0 2 (7 / 2) (0, 0, 0, 180)).2.2.2 "left"
     (by simp)⟩

/-- A manifest value for `gfx:resize`: either an upstream `ImageArtifact`
or a scalar (non-artifact) parameter value. -/
inductive MVal where
  | imageA (a : ImageArtifact)
  | scalar (v : PyVal)
deriving DecidableEq, Repr

/-- The scan loop of `resize` (`ops/resize.py` lines 57-66): walk the
manifest items in order, skip the named parameter keys `width` and
`height`, remember the first `ImageArtifact` and raise as soon as a
second one appears. -/
def scanImages : List (String × MVal) → Option ImageArtifact →
    Except PyErr (Option ImageArtifact)
  | [], acc => .ok acc
  | (k, v) :: rest, acc =>
    if k ≠ "width" ∧ k ≠ "height" then
      match v with
      | .imageA a =>
        match acc with
        | some _ =>
          .error (.valueError "gfx:resize found multiple ImageArtifacts in manifest")
        | none => scanImages rest (some a)
      | .scalar _ => scanImages rest acc
    else scanImages rest acc

/-- `resize` lines 54-72: run the scan and raise a KeyError when no
upstream `ImageArtifact` was found. -/
def findUpstreamImage (manifest : List (String × MVal)) : Except PyErr ImageArtifact :=
  match scanImages manifest none with
  | .error e => .error e
  | .ok (some a) => .ok a
  | .ok none =>
    .error (.keyError "gfx:resize requires an upstream ImageArtifact in manifest")

/-- The inputs of matching artifact kind: `ImageArtifact` values whose
key is not one of the named scalar parameters, in manifest order. -/
def imageMatches (manifest : List (String × MVal)) : List ImageArtifact :=
  manifest.filterMap (fun p =>
    if p.1 ≠ "width" ∧ p.1 ≠ "height" then
      match p.2 with
      | .imageA a => some a
      | .scalar _ => none
    else none)

theorem scanImages_spec (manifest : List (String × MVal)) : ∀ acc,
    scanImages manifest acc =
      match acc, imageMatches manifest with
      | none, [] => .ok none
      | none, [a] => .ok (some a)
      | none, _ :: _ :: _ =>
        .error (.valueError "gfx:resize found multiple ImageArtifacts in manifest")
      | some a, [] => .ok (some a)
      | some _, _ :: _ =>
        .error (.valueError "gfx:resize found multiple ImageArtifacts in manifest") := by
  induction manifest with
  | nil =>
    intro acc
    cases acc <;> rfl
  | cons p rest ih =>
    intro acc
    obtain ⟨k, v⟩ := p
    by_cases hk : k ≠ "width" ∧ k ≠ "height"
    · cases v with
      | imageA a =>
        cases acc with
        | none =>
          rw [show scanImages ((k, .imageA a) :: rest) none = scanImages rest (some a) by
            simp [scanImages, hk]]
          rw [ih (some a)]
          have hm : imageMatches ((k, MVal.imageA a) :: rest) = a :: imageMatches rest := by
            simp [imageMatches, hk]
          rw [hm]
          cases hmr : imageMatches rest <;> simp
        | some b =>
          rw [show scanImages ((k, .imageA a) :: rest) (some b) =
              .error (.valueError "gfx:resize found multiple ImageArtifacts in manifest") by
            simp [scanImages, hk]]
          have hm : imageMatches ((k, MVal.imageA a) :: rest) = a :: imageMatches rest := by
            simp [imageMatches, hk]
          rw [hm]
      | scalar w =>
        rw [show scanImages ((k, .scalar w) :: rest) acc = scanImages rest acc by
          simp [scanImages, hk]]
        rw [ih acc]
        have hm : imageMatches ((k, MVal.scalar w) :: rest) = imageMatches rest := by
          simp [imageMatches, hk]
        rw [hm]
    · rw [show scanImages ((k, v) :: rest) acc = scanImages rest acc by
        simp [scanImages, hk]]
      rw [ih acc]
      have hm : imageMatches ((k, v) :: rest) = imageMatches rest := by
        simp [imageMatches, hk]
      rw [hm]

/-- C8: `resize` locates its one upstream artifact by scanning the
manifest for `ImageArtifact` values outside the named scalar parameters
`width`/`height`: a unique match is returned, several matches raise the
ambiguity error, no match raises the missing-dependency error. -/
theorem resize_locates_unique_image (manifest : List (String × MVal)) :
    (∀ a, imageMatches manifest = [a] → findUpstreamImage manifest = .ok a) ∧
    (imageMatches manifest = [] →
      findUpstreamImage manifest =
        .error (.keyError "gfx:resize requires an upstream ImageArtifact in manifest")) ∧
    (∀ a b rest, imageMatches manifest = a :: b :: rest →
      findUpstreamImage manifest =
        .error (.valueError "gfx:resize found multiple ImageArtifacts in manifest")) := by
  have h := scanImages_spec manifest none
  refine ⟨fun a ha => ?_, fun h0 => ?_, fun a b rest hab => ?_⟩
  · rw [ha] at h
    unfold findUpstreamImage
    rw [h]
  · rw [h0] at h
    unfold findUpstreamImage
    rw [h]
  · rw [hab] at h
    unfold findUpstreamImage
    rw [h]

/-- Witness for C8: a manifest with the two named scalar parameters and
one upstream image yields that image; adding a second image raises the
ambiguity error; a manifest without any image raises the missing error. -/
theorem resize_locates_unique_image_witness :
    findUpstreamImage [("width", .scalar (.pyInt 4)), ("height", .scalar (.pyInt 4)),
      ("src", .imageA ⟨[[(1, 2, 3, 4)]]⟩)] = .ok ⟨[[(1, 2, 3, 4)]]⟩ ∧
    findUpstreamImage [("src", .imageA ⟨[[(1, 2, 3, 4)]]⟩),
      ("extra", .imageA ⟨[]⟩)] =
      .error (.valueError "gfx:resize found multiple ImageArtifacts in manifest") ∧
    findUpstreamImage [("width", .scalar (.pyInt 4))] =
      .error (.keyError "gfx:resize requires an upstream ImageArtifact in manifest") :=
  ⟨(resize_locates_unique_image _).1 ⟨[[(1, 2, 3, 4)]]⟩ rfl,
   (resize_locates_unique_image _).2.2 ⟨[[(1, 2, 3, 4)]]⟩ ⟨[]⟩ [] rfl,
   (resize_locates_unique_image _).2.1 rfl⟩

end InvariantGfx
